import Mathlib

/-!
Shallow embedding of the cart subsystem of the luli-beads-angular storefront:
the Local Cart Store (`CartService`, src/app/core/services — the cart service
bundled in validation.service.ts), the Remote Cart Gateway
(`CartDatabaseService`, product.service.ts) and the Cart Synchronization
Coordinator (`CartStateService`, cart-state.service.ts).

Modelling conventions:
* JavaScript numbers used as currency amounts are modelled as rationals (ℚ);
  quantities as integers (ℤ).
* `Date` timestamps are modelled as natural numbers; each `new Date()` in the
  source is a parameter of the embedded operation.
* `undefined`-able fields are `Option`s.
* Remote calls either succeed or fail; failure is injected through explicit
  boolean oracles, since the embedding has no I/O.
* `ProductDisplay` keeps the fields the cart logic reads (`id`, `price`,
  `originalPrice`); the purely presentational fields (name, images, …) are
  carried by no cart computation and are omitted.
-/

namespace LuliCart

/-- Product snapshot carried by a cart line item (fields used by cart logic). -/
structure ProductDisplay where
  id : String
  price : ℚ
  originalPrice : Option ℚ
deriving DecidableEq, Repr

/-- `CartItem` from src/app/types/cart.ts. -/
structure CartItem where
  id : String
  product : ProductDisplay
  quantity : ℤ
  selectedColor : Option String
  selectedHandle : Option String
  customName : Option String
  price : ℚ
deriving DecidableEq, Repr

/-- `CartSummary` from src/app/types/cart.ts. -/
structure CartSummary where
  totalItems : ℤ
  totalPrice : ℚ
  totalDiscount : ℚ
  subtotal : ℚ
  shipping : ℚ
  tax : ℚ
deriving DecidableEq, Repr

/-- `CartState` from src/app/types/cart.ts. -/
structure CartState where
  items : List CartItem
  summary : CartSummary
  isLoading : Bool
  error : Option String
  lastSync : Option ℕ
deriving DecidableEq, Repr

/-- `calculateSummary` (identical in CartService and CartStateService):
subtotal = Σ price·quantity, discount from originalPrice deltas,
shipping `subtotal > 0 ? (subtotal >= 200 ? 0 : 15) : 0`, tax = 8 % of
subtotal, totalItems = Σ quantity, totalPrice = subtotal + shipping + tax. -/
def calculateSummary (items : List CartItem) : CartSummary :=
  let subtotal : ℚ := items.foldl (fun sum item => sum + item.price * (item.quantity : ℚ)) 0
  let totalDiscount : ℚ := items.foldl (fun sum item =>
    match item.product.originalPrice with
    | some originalPrice => sum + (originalPrice - item.price) * (item.quantity : ℚ)
    | none => sum) 0
  let shipping : ℚ := if 0 < subtotal then (if 200 ≤ subtotal then 0 else 15) else 0
  let tax : ℚ := subtotal * (8 / 100)
  { totalItems := items.foldl (fun sum item => sum + item.quantity) 0
    totalPrice := subtotal + shipping + tax
    totalDiscount := totalDiscount
    subtotal := subtotal
    shipping := shipping
    tax := tax }

namespace CartService

/-- `CartService.updateCart`: recompute the summary, clear error/loading and
stamp `lastSync` with the current time (the storage write has no effect on the
in-memory state and is not modelled). -/
def updateCart (items : List CartItem) (now : ℕ) : CartState :=
  { items := items
    summary := calculateSummary items
    isLoading := false
    error := none
    lastSync := some now }

/-- `CartService.removeFromCart`: drop the item with the given id. -/
def removeFromCart (s : CartState) (now : ℕ) (itemId : String) : CartState :=
  updateCart (s.items.filter (fun item => !(item.id == itemId))) now

/-- `CartService.updateItemQuantity`: quantity ≤ 0 delegates to
`removeFromCart`; otherwise the matching item gets the new quantity. -/
def updateItemQuantity (s : CartState) (now : ℕ) (itemId : String) (quantity : ℤ) : CartState :=
  if quantity ≤ 0 then removeFromCart s now itemId
  else updateCart (s.items.map (fun item =>
    if item.id == itemId then { item with quantity := quantity } else item)) now

/-- `CartService.addToCart`: merge into an existing line item matching the
(productId, color, handle, customName) tuple, else append a new item whose id
is the freshly generated `newId`. -/
def addToCart (s : CartState) (now : ℕ) (newId : String) (product : ProductDisplay)
    (quantity : ℤ) (selectedColor selectedHandle customName : Option String) : CartState :=
  match s.items.find? (fun item =>
      item.product.id == product.id &&
      item.selectedColor == selectedColor &&
      item.selectedHandle == selectedHandle &&
      item.customName == customName) with
  | some existingItem =>
      updateItemQuantity s now existingItem.id (existingItem.quantity + quantity)
  | none =>
      updateCart (s.items ++ [{ id := newId
                                product := product
                                quantity := quantity
                                selectedColor := selectedColor
                                selectedHandle := selectedHandle
                                customName := customName
                                price := product.price }]) now

/-- `CartService.clearCart`: empty the item list. -/
def clearCart (s : CartState) (now : ℕ) : CartState :=
  updateCart [] now

end CartService

/-- The initial `CartState` of a fresh `CartService`. -/
def emptyCartState : CartState :=
  { items := []
    summary := calculateSummary []
    isLoading := false
    error := none
    lastSync := none }

/-- One Local Cart Store operation, with the generated id and the `Date.now`
timestamp made explicit. -/
inductive CartOp
  | add (newId : String) (product : ProductDisplay) (quantity : ℤ)
        (selectedColor selectedHandle customName : Option String)
  | remove (itemId : String)
  | update (itemId : String) (quantity : ℤ)
  | clear
deriving DecidableEq, Repr

/-- Dispatch one operation to the corresponding `CartService` method. -/
def applyOp (s : CartState) (now : ℕ) : CartOp → CartState
  | .add newId product quantity selectedColor selectedHandle customName =>
      CartService.addToCart s now newId product quantity selectedColor selectedHandle customName
  | .remove itemId => CartService.removeFromCart s now itemId
  | .update itemId quantity => CartService.updateItemQuantity s now itemId quantity
  | .clear => CartService.clearCart s now

/-- Run a sequence of store operations with a strictly increasing clock. -/
def runOpsFrom (s : CartState) (now : ℕ) : List CartOp → CartState
  | [] => s
  | op :: ops => runOpsFrom (applyOp s now op) (now + 1) ops

/-- Run a sequence of store operations from the empty cart. -/
def runOps (ops : List CartOp) : CartState :=
  runOpsFrom emptyCartState 0 ops

/-- The stored quantities of a cart state, in list order. -/
def quantities (s : CartState) : List ℤ :=
  s.items.map (fun item => item.quantity)

/-- Does the operation, if it is an `add`, carry a quantity ≥ 1? -/
def addQuantityOk : CartOp → Bool
  | .add _ _ quantity _ _ _ => decide (1 ≤ quantity)
  | _ => true

/-- A sample product used in concrete evaluations. -/
def sampleProduct : ProductDisplay :=
  { id := "p1", price := 10, originalPrice := none }

section SummaryLemmas

theorem foldl_add_sum {α M : Type} [AddCommMonoid M] (l : List α) (f : α → M) (a : M) :
    l.foldl (fun s x => s + f x) a = a + (l.map f).sum := by
  induction l generalizing a with
  | nil => simp
  | cons x xs ih => simp [ih, add_assoc]

theorem removeFromCart_summary (s : CartState) (now : ℕ) (itemId : String) :
    (CartService.removeFromCart s now itemId).summary =
      calculateSummary (CartService.removeFromCart s now itemId).items := rfl

theorem updateItemQuantity_summary (s : CartState) (now : ℕ) (itemId : String) (q : ℤ) :
    (CartService.updateItemQuantity s now itemId q).summary =
      calculateSummary (CartService.updateItemQuantity s now itemId q).items := by
  unfold CartService.updateItemQuantity
  split
  · rfl
  · rfl

theorem addToCart_summary (s : CartState) (now : ℕ) (newId : String) (p : ProductDisplay)
    (q : ℤ) (c h n : Option String) :
    (CartService.addToCart s now newId p q c h n).summary =
      calculateSummary (CartService.addToCart s now newId p q c h n).items := by
  unfold CartService.addToCart
  split
  · exact updateItemQuantity_summary ..
  · rfl

theorem applyOp_summary (s : CartState) (now : ℕ) (op : CartOp) :
    (applyOp s now op).summary = calculateSummary (applyOp s now op).items := by
  cases op with
  | add newId p q c h n => exact addToCart_summary ..
  | remove itemId => exact removeFromCart_summary ..
  | update itemId q => exact updateItemQuantity_summary ..
  | clear => rfl

theorem runOpsFrom_summary (ops : List CartOp) (s : CartState) (now : ℕ)
    (hs : s.summary = calculateSummary s.items) :
    (runOpsFrom s now ops).summary = calculateSummary (runOpsFrom s now ops).items := by
  induction ops generalizing s now with
  | nil => exact hs
  | cons op ops ih => exact ih (applyOp s now op) (now + 1) (applyOp_summary s now op)

theorem runOps_summary (ops : List CartOp) :
    (runOps ops).summary = calculateSummary (runOps ops).items :=
  runOpsFrom_summary ops emptyCartState 0 rfl

end SummaryLemmas

/-- C5: after any sequence of add/remove/updateQuantity (and clear) operations
from the empty cart, the derived summary satisfies totalItems = Σ quantity,
subtotal = Σ price·quantity, and totalPrice = subtotal + shipping + tax. -/
theorem cartSummary_invariants (ops : List CartOp) :
    (runOps ops).summary.totalItems = ((runOps ops).items.map (fun item => item.quantity)).sum ∧
    (runOps ops).summary.subtotal =
      ((runOps ops).items.map (fun item => item.price * (item.quantity : ℚ))).sum ∧
    (runOps ops).summary.totalPrice =
      (runOps ops).summary.subtotal + (runOps ops).summary.shipping + (runOps ops).summary.tax := by
  rw [runOps_summary ops]
  refine ⟨?_, ?_, rfl⟩
  · simp [calculateSummary, foldl_add_sum]
  · simp [calculateSummary, foldl_add_sum]

/-- C6 counterexample: on the empty item set the subtotal is 0 < 200 yet the
shipping fee is 0, not 15 — the code waives shipping on an empty cart. -/
theorem shipping_at_zero_subtotal :
    (calculateSummary []).subtotal < 200 ∧ (calculateSummary []).shipping ≠ 15 := by
  decide

/-- C6 (amended): shipping is 15 when 0 < subtotal < 200, and 0 when
subtotal ≥ 200 or subtotal ≤ 0 (in particular on an empty cart); tax is
exactly 8 % of the subtotal in every case. -/
theorem shipping_tax_rule (items : List CartItem) :
    (0 < (calculateSummary items).subtotal → (calculateSummary items).subtotal < 200 →
      (calculateSummary items).shipping = 15) ∧
    (200 ≤ (calculateSummary items).subtotal → (calculateSummary items).shipping = 0) ∧
    ((calculateSummary items).subtotal ≤ 0 → (calculateSummary items).shipping = 0) ∧
    (calculateSummary items).tax = (calculateSummary items).subtotal * (8 / 100) := by
  refine ⟨fun h1 h2 => ?_, fun h => ?_, fun h => ?_, rfl⟩
  · simp only [calculateSummary] at h1 h2 ⊢
    rw [if_pos h1, if_neg (not_le.mpr h2)]
  · have h0 := lt_of_lt_of_le (show (0 : ℚ) < 200 by norm_num) h
    simp only [calculateSummary] at h h0 ⊢
    rw [if_pos h0, if_pos h]
  · simp only [calculateSummary] at h ⊢
    rw [if_neg (not_lt.mpr h)]

/-- An item priced 100 with quantity 1, for concrete evaluation. -/
def hundredItem : CartItem :=
  { id := "w", product := { id := "pw", price := 100, originalPrice := none },
    quantity := 1, selectedColor := none, selectedHandle := none, customName := none,
    price := 100 }

/-- Witness for `shipping_tax_rule` at a cart whose subtotal is 100. -/
theorem shipping_tax_rule_witness :
    (0 < (calculateSummary [hundredItem]).subtotal ∧
      (calculateSummary [hundredItem]).subtotal < 200) ∧
    (calculateSummary [hundredItem]).shipping = 15 :=
  ⟨⟨by norm_num [calculateSummary, hundredItem], by norm_num [calculateSummary, hundredItem]⟩,
    (shipping_tax_rule [hundredItem]).1 (by norm_num [calculateSummary, hundredItem])
      (by norm_num [calculateSummary, hundredItem])⟩

section QuantityLemmas

theorem mem_replaceQty {s : List CartItem} {tid : String} {qNew : ℤ}
    (hs : ∀ item ∈ s, 1 ≤ item.quantity) (hq : 1 ≤ qNew) :
    ∀ item ∈ s.map (fun item =>
        if item.id == tid then { item with quantity := qNew } else item),
      1 ≤ item.quantity := by
  intro item hmem
  obtain ⟨a, ha, rfl⟩ := List.mem_map.mp hmem
  by_cases hid : a.id == tid
  · simpa [hid] using hq
  · simpa [hid] using hs a ha

theorem applyOp_quantities (s : CartState) (now : ℕ) (op : CartOp)
    (hop : addQuantityOk op = true) (hs : ∀ item ∈ s.items, 1 ≤ item.quantity) :
    ∀ item ∈ (applyOp s now op).items, 1 ≤ item.quantity := by
  cases op with
  | add newId p q c h n =>
      have hq : 1 ≤ q := by simpa [addQuantityOk] using hop
      simp only [applyOp, CartService.addToCart]
      cases hfind : s.items.find? (fun item =>
          item.product.id == p.id && item.selectedColor == c &&
          item.selectedHandle == h && item.customName == n) with
      | some e =>
          have he : e ∈ s.items := List.mem_of_find?_eq_some hfind
          have h1 : 1 ≤ e.quantity := hs e he
          simp only [CartService.updateItemQuantity]
          rw [if_neg (by omega : ¬ e.quantity + q ≤ 0)]
          simpa [CartService.updateCart] using mem_replaceQty hs (by omega)
      | none =>
          intro item hmem
          simp only [CartService.updateCart] at hmem
          rcases List.mem_append.mp hmem with hin | hnew
          · exact hs item hin
          · simp at hnew
            subst hnew
            exact hq
  | remove itemId =>
      intro item hmem
      simp only [applyOp, CartService.removeFromCart, CartService.updateCart] at hmem
      exact hs item (List.mem_of_mem_filter hmem)
  | update itemId q =>
      simp only [applyOp, CartService.updateItemQuantity]
      split
      · intro item hmem
        simp only [CartService.removeFromCart, CartService.updateCart] at hmem
        exact hs item (List.mem_of_mem_filter hmem)
      · rename_i hq
        simpa [CartService.updateCart] using mem_replaceQty hs (by omega)
  | clear =>
      intro item hmem
      simp [applyOp, CartService.clearCart, CartService.updateCart] at hmem

theorem runOpsFrom_quantities (ops : List CartOp) (s : CartState) (now : ℕ)
    (hops : ∀ op ∈ ops, addQuantityOk op = true)
    (hs : ∀ item ∈ s.items, 1 ≤ item.quantity) :
    ∀ item ∈ (runOpsFrom s now ops).items, 1 ≤ item.quantity := by
  induction ops generalizing s now with
  | nil => exact hs
  | cons op ops ih =>
      exact ih (applyOp s now op) (now + 1) (fun o ho => hops o (List.mem_cons_of_mem op ho))
        (applyOp_quantities s now op (hops op (List.mem_cons_self op ops)) hs)

end QuantityLemmas

/-- C7 counterexample: `addToCart` with quantity 0 on the empty cart stores a
line item whose quantity is 0 — the store accepts a non-positive quantity on a
fresh add. -/
theorem zero_quantity_stored :
    quantities (runOps [CartOp.add "i1" sampleProduct 0 none none none]) = [0] := by
  decide

/-- C7 (amended): for every operation sequence from the empty cart in which
every `add` carries a quantity ≥ 1, every stored line item has quantity ≥ 1;
`updateQuantity` with a quantity that is 0 or negative removes the item rather
than storing it. -/
theorem quantity_invariant (ops : List CartOp)
    (h : ∀ op ∈ ops, addQuantityOk op = true) :
    ∀ item ∈ (runOps ops).items, 1 ≤ item.quantity :=
  runOpsFrom_quantities ops emptyCartState 0 h (by simp [emptyCartState])

/-- Witness for `quantity_invariant` on a single add of quantity 2. -/
theorem quantity_invariant_witness :
    (∀ op ∈ [CartOp.add "i1" sampleProduct 2 none none none], addQuantityOk op = true) ∧
    (∀ item ∈ (runOps [CartOp.add "i1" sampleProduct 2 none none none]).items,
      1 ≤ item.quantity) :=
  ⟨by decide, quantity_invariant [CartOp.add "i1" sampleProduct 2 none none none] (by decide)⟩

/-- C8: `updateItemQuantity` with quantity ≤ 0 (in particular 0) yields exactly
the item list of `removeFromCart` with the same id — the source delegates to
`removeFromCart` in that branch. -/
theorem updateQuantity_nonpos_eq_remove (s : CartState) (now : ℕ) (itemId : String)
    (q : ℤ) (hq : q ≤ 0) :
    (CartService.updateItemQuantity s now itemId q).items =
      (CartService.removeFromCart s now itemId).items := by
  simp [CartService.updateItemQuantity, hq]

/-- Witness for `updateQuantity_nonpos_eq_remove` at quantity 0. -/
theorem updateQuantity_nonpos_eq_remove_witness :
    ((0 : ℤ) ≤ 0) ∧
    (CartService.updateItemQuantity emptyCartState 1 "a" 0).items =
      (CartService.removeFromCart emptyCartState 1 "a").items :=
  ⟨le_refl 0, updateQuantity_nonpos_eq_remove emptyCartState 1 "a" 0 (le_refl 0)⟩

/-! ### The Cart Synchronization Coordinator (`CartStateService`) -/

/-- `CartItemCreate` from src/app/types/cart.ts. -/
structure CartItemCreate where
  product_id : String
  quantity : ℤ
  selected_color : Option String
  selected_handle : Option String
  custom_name : Option String
deriving DecidableEq, Repr

/-- The payload of a `CartItemChange`: `CartItem | CartItemCreate`. -/
inductive ChangePayload
  | cartItem (item : CartItem)
  | createPayload (payload : CartItemCreate)
deriving DecidableEq, Repr

/-- The `'add' | 'update' | 'remove'` tag of a `CartItemChange`. -/
inductive ChangeType
  | add
  | update
  | remove
deriving DecidableEq, Repr

/-- `CartItemChange` from src/app/types/cart.ts. The `item` field is an
`Option` because `CartStateService.clearCart` stores `items[0]` of a possibly
empty list there (i.e. `undefined` at runtime). -/
structure CartItemChange where
  type : ChangeType
  item : Option ChangePayload
  timestamp : ℕ
  retryCount : ℕ
deriving DecidableEq, Repr

/-- `CartSyncState` from src/app/types/cart.ts. -/
structure CartSyncState where
  isOnline : Bool
  lastSyncAttempt : Option ℕ
  pendingChanges : List CartItemChange
  syncErrors : List String
deriving DecidableEq, Repr

/-- The in-memory state of `CartStateService` together with the `CartService`
it wraps: `localCart` is `CartService.cartState`, `cartState` is the
coordinator's own `cartState` subject, `pendingChanges` the coordinator's
separate `pendingChanges` subject (mirrored into `syncState.pendingChanges`
by the code). -/
structure CoordState where
  localCart : CartState
  cartState : CartState
  syncState : CartSyncState
  pendingChanges : List CartItemChange
deriving DecidableEq, Repr

/-- The guard of `CartStateService.updateLocalCartState`:
`!this.cartState.value.lastSync || localState.lastSync && localState.lastSync
 > this.cartState.value.lastSync`. -/
def shouldAcceptLocal : Option ℕ → Option ℕ → Bool
  | none, _ => true
  | some _, none => false
  | some coordTime, some localTime => decide (coordTime < localTime)

/-- `CartStateService.updateLocalCartState`: replace the coordinator's cart
state by the local store's state when the guard accepts it. -/
def updateLocalCartState (coordCart localState : CartState) : CartState :=
  if shouldAcceptLocal coordCart.lastSync localState.lastSync then localState else coordCart

namespace CartStateService

/-- A `CartService` mutation followed by the synchronous
`cartService.cartState$` subscription firing `updateLocalCartState`. -/
def localApply (s : CoordState) (localState : CartState) : CoordState :=
  { s with localCart := localState
           cartState := updateLocalCartState s.cartState localState }

/-- `CartStateService.addPendingChange`: append to both the `pendingChanges`
subject and `syncState.pendingChanges`. -/
def addPendingChange (s : CoordState) (change : CartItemChange) : CoordState :=
  { s with pendingChanges := s.pendingChanges ++ [change]
           syncState := { s.syncState with
             pendingChanges := s.syncState.pendingChanges ++ [change] } }

/-- `CartStateService.addToCart`: optimistic local add; when authenticated the
remote insert is attempted, and on failure an `add` PendingChange carrying the
creation payload is enqueued. `remoteOk` is the outcome oracle of the remote
call. -/
def addToCart (s : CoordState) (now : ℕ) (newId : String) (product : ProductDisplay)
    (quantity : ℤ) (selectedColor selectedHandle customName : Option String)
    (user remoteOk : Bool) : CoordState :=
  let s1 := localApply s
    (CartService.addToCart s.localCart now newId product quantity
      selectedColor selectedHandle customName)
  if user && !remoteOk then
    addPendingChange s1
      { type := .add
        item := some (.createPayload
          { product_id := product.id, quantity := quantity, selected_color := selectedColor,
            selected_handle := selectedHandle, custom_name := customName })
        timestamp := now
        retryCount := 0 }
  else s1

/-- `CartStateService.removeFromCart`: optimistic local remove; on remote
failure the catch block looks the item up in the coordinator's current item
list and only enqueues a `remove` PendingChange when it is found. -/
def removeFromCart (s : CoordState) (now : ℕ) (itemId : String)
    (user remoteOk : Bool) : CoordState :=
  let s1 := localApply s (CartService.removeFromCart s.localCart now itemId)
  if user && !remoteOk then
    match s1.cartState.items.find? (fun item => item.id == itemId) with
    | some item =>
        addPendingChange s1
          { type := .remove, item := some (.cartItem item), timestamp := now, retryCount := 0 }
    | none => s1
  else s1

/-- `CartStateService.updateItemQuantity`: optimistic local update; on remote
failure the catch block enqueues an `update` PendingChange carrying the found
item with the requested quantity, when the item is still present. -/
def updateItemQuantity (s : CoordState) (now : ℕ) (itemId : String) (quantity : ℤ)
    (user remoteOk : Bool) : CoordState :=
  let s1 := localApply s (CartService.updateItemQuantity s.localCart now itemId quantity)
  if user && !remoteOk then
    match s1.cartState.items.find? (fun item => item.id == itemId) with
    | some item =>
        addPendingChange s1
          { type := .update, item := some (.cartItem { item with quantity := quantity }),
            timestamp := now, retryCount := 0 }
    | none => s1
  else s1

/-- `CartStateService.clearCart`: optimistic local clear; on remote failure a
`remove` PendingChange is enqueued whose payload is `items[0]` of the
coordinator's current (already cleared) item list. -/
def clearCart (s : CoordState) (now : ℕ) (user remoteOk : Bool) : CoordState :=
  let s1 := localApply s (CartService.clearCart s.localCart now)
  if user && !remoteOk then
    addPendingChange s1
      { type := .remove, item := (s1.cartState.items.get? 0).map ChangePayload.cartItem,
        timestamp := now, retryCount := 0 }
  else s1

/-- The loop body of `CartStateService.processPendingChanges`: a successful
replay drops the change; a failed one has its retry counter incremented and is
kept only while the counter stays below 3. -/
def replayFold (replayOk : CartItemChange → Bool) (failed : List CartItemChange)
    (change : CartItemChange) : List CartItemChange :=
  if replayOk change then failed
  else
    let bumped := { change with retryCount := change.retryCount + 1 }
    if bumped.retryCount < 3 then failed ++ [bumped] else failed

/-- `CartStateService.processPendingChanges`: drain the queue (no-op when the
queue is empty or no user is signed in); the remaining failed changes replace
the queue in both `pendingChanges` and `syncState.pendingChanges`; nothing is
ever written to `syncState.syncErrors`. `replayOk` is the outcome oracle of
the per-change remote replay. -/
def processPendingChanges (s : CoordState) (user : Bool)
    (replayOk : CartItemChange → Bool) : CoordState :=
  let changes := s.pendingChanges
  if changes.isEmpty then s
  else if !user then s
  else
    let failedChanges := changes.foldl (replayFold replayOk) []
    { s with pendingChanges := failedChanges
             syncState := { s.syncState with pendingChanges := failedChanges } }

end CartStateService

/-- The fate of one pending change under one drain pass: dropped on success,
kept with a bumped retry counter while below the ceiling, dropped at the
ceiling. -/
def retryOutcome (replayOk : CartItemChange → Bool) (change : CartItemChange) :
    Option CartItemChange :=
  if replayOk change then none
  else if change.retryCount + 1 < 3 then some { change with retryCount := change.retryCount + 1 }
  else none

/-- A fresh `CartSyncState` as initialised by the coordinator. -/
def emptySyncState : CartSyncState :=
  { isOnline := true, lastSyncAttempt := none, pendingChanges := [], syncErrors := [] }

/-- A pending change that has already failed twice. -/
def thirdFailChange : CartItemChange :=
  { type := .add
    item := some (.createPayload
      { product_id := "p1", quantity := 1, selected_color := none,
        selected_handle := none, custom_name := none })
    timestamp := 0
    retryCount := 2 }

/-- A coordinator state holding exactly one twice-failed pending change. -/
def coordWithThirdFail : CoordState :=
  { localCart := emptyCartState
    cartState := emptyCartState
    syncState := { emptySyncState with pendingChanges := [thirdFailChange] }
    pendingChanges := [thirdFailChange] }

/-- C2 counterexample: a pending change failing for the third time is removed
from the queue, but `syncErrors` stays empty — no entry is ever appended to
it, contradicting the claim that exactly one new string entry appears. -/
theorem third_failure_appends_no_syncError :
    (CartStateService.processPendingChanges coordWithThirdFail true (fun _ => false)).pendingChanges
      = [] ∧
    (CartStateService.processPendingChanges coordWithThirdFail true
      (fun _ => false)).syncState.syncErrors = [] :=
  ⟨rfl, rfl⟩

theorem replayFold_filterMap (replayOk : CartItemChange → Bool)
    (l : List CartItemChange) (acc : List CartItemChange) :
    l.foldl (CartStateService.replayFold replayOk) acc =
      acc ++ l.filterMap (retryOutcome replayOk) := by
  induction l generalizing acc with
  | nil => simp
  | cons c cs ih =>
      simp only [List.foldl_cons, List.filterMap_cons, ih]
      by_cases hok : replayOk c
      · simp [CartStateService.replayFold, retryOutcome, hok]
      · by_cases h3 : c.retryCount + 1 < 3
        · simp [CartStateService.replayFold, retryOutcome, hok, h3]
        · simp [CartStateService.replayFold, retryOutcome, hok, h3]

/-- C2 (amended): in a drain pass with a signed-in user, every successfully
replayed change is removed from the queue and a change failing for the third
time is removed as well, with the surviving failed changes keeping their
bumped retry counters — and `syncErrors` is left untouched (the drop is
silent, no entry is appended). -/
theorem processPendingChanges_spec (s : CoordState) (replayOk : CartItemChange → Bool)
    (h : s.pendingChanges ≠ []) :
    (CartStateService.processPendingChanges s true replayOk).pendingChanges =
      s.pendingChanges.filterMap (retryOutcome replayOk) ∧
    (CartStateService.processPendingChanges s true replayOk).syncState.syncErrors =
      s.syncState.syncErrors := by
  have hne : s.pendingChanges.isEmpty = false := by
    cases hl : s.pendingChanges with
    | nil => exact absurd hl h
    | cons a l => rfl
  simp [CartStateService.processPendingChanges, hne, replayFold_filterMap]

/-- Witness for `processPendingChanges_spec` at a queue with one change whose
replay succeeds. -/
theorem processPendingChanges_spec_witness :
    coordWithThirdFail.pendingChanges ≠ [] ∧
    ((CartStateService.processPendingChanges coordWithThirdFail true
        (fun _ => true)).pendingChanges =
      coordWithThirdFail.pendingChanges.filterMap (retryOutcome (fun _ => true)) ∧
    (CartStateService.processPendingChanges coordWithThirdFail true
        (fun _ => true)).syncState.syncErrors =
      coordWithThirdFail.syncState.syncErrors) :=
  ⟨List.cons_ne_nil _ _, processPendingChanges_spec coordWithThirdFail (fun _ => true)
    (List.cons_ne_nil _ _)⟩

section CoordinatorLemmas

theorem localApply_pendingChanges (s : CoordState) (localState : CartState) :
    (CartStateService.localApply s localState).pendingChanges = s.pendingChanges := rfl

theorem addPendingChange_pendingChanges (s : CoordState) (change : CartItemChange) :
    (CartStateService.addPendingChange s change).pendingChanges =
      s.pendingChanges ++ [change] := rfl

theorem localApply_cartState (s : CoordState) (localState : CartState)
    (hfresh : shouldAcceptLocal s.cartState.lastSync localState.lastSync = true) :
    (CartStateService.localApply s localState).cartState = localState := by
  simp [CartStateService.localApply, updateLocalCartState, hfresh]

theorem removeFromCart_lastSync (s : CartState) (now : ℕ) (itemId : String) :
    (CartService.removeFromCart s now itemId).lastSync = some now := rfl

theorem updateItemQuantity_lastSync (s : CartState) (now : ℕ) (itemId : String) (q : ℤ) :
    (CartService.updateItemQuantity s now itemId q).lastSync = some now := by
  unfold CartService.updateItemQuantity
  split
  · rfl
  · rfl

theorem find?_filter_ne (l : List CartItem) (itemId : String) :
    (l.filter (fun item => !(item.id == itemId))).find? (fun item => item.id == itemId)
      = none := by
  apply List.find?_eq_none.mpr
  intro x hx
  have hpx := List.of_mem_filter hx
  simp at hpx
  simp [hpx]

end CoordinatorLemmas

/-- A concrete cart item with id "a". -/
def itemA : CartItem :=
  { id := "a", product := sampleProduct, quantity := 1, selectedColor := none,
    selectedHandle := none, customName := none, price := 10 }

/-- The cart state holding the single item "a", synced at time 5. -/
def syncedCartState : CartState :=
  { items := [itemA], summary := calculateSummary [itemA], isLoading := false,
    error := none, lastSync := some 5 }

/-- A coordinator state synced at time 5 holding the single item "a". -/
def syncedCoordState : CoordState :=
  { localCart := syncedCartState
    cartState := syncedCartState
    syncState := emptySyncState
    pendingChanges := [] }

/-- C3 counterexample: removing item "a" while authenticated with the remote
delete failing leaves the pending-change queue empty — the catch block finds
no item (the local removal already dropped it), so no `remove` PendingChange
is enqueued, contradicting "always enqueues". -/
theorem failed_remove_enqueues_nothing :
    (CartStateService.removeFromCart syncedCoordState 6 "a" true false).pendingChanges = [] ∧
    (CartStateService.removeFromCart syncedCoordState 6 "a" true false).cartState.items = [] :=
  ⟨rfl, rfl⟩

/-- C3 (amended): while authenticated and with a fresh local-mutation
timestamp, a failed remote insert after `addToCart` always enqueues an `add`
PendingChange with the creation payload; a failed remote delete after
`removeFromCart` enqueues nothing (the local removal precedes the remote
call, so the lookup in the catch block finds no item); a failed remote update
after `updateItemQuantity` with a positive quantity on a present item
enqueues exactly one `update` PendingChange carrying the item with the new
quantity. -/
theorem mutation_failure_pending (s : CoordState) (now : ℕ) (newId : String)
    (p : ProductDisplay) (q : ℤ) (color handle custom : Option String) (itemId : String)
    (hfresh : shouldAcceptLocal s.cartState.lastSync (some now) = true) :
    ((CartStateService.addToCart s now newId p q color handle custom true false).pendingChanges
      = s.pendingChanges ++
        [{ type := .add
           item := some (.createPayload
             { product_id := p.id, quantity := q, selected_color := color,
               selected_handle := handle, custom_name := custom })
           timestamp := now, retryCount := 0 }]) ∧
    ((CartStateService.removeFromCart s now itemId true false).pendingChanges
      = s.pendingChanges) ∧
    (0 < q → itemId ∈ s.localCart.items.map (fun item => item.id) →
      ∃ it : CartItem, it.id = itemId ∧
        (CartStateService.updateItemQuantity s now itemId q true false).pendingChanges
          = s.pendingChanges ++
            [{ type := .update, item := some (.cartItem { it with quantity := q }),
               timestamp := now, retryCount := 0 }]) := by
  refine ⟨?_, ?_, ?_⟩
  · simp [CartStateService.addToCart, CartStateService.addPendingChange,
      CartStateService.localApply]
  · have hc := localApply_cartState s (CartService.removeFromCart s.localCart now itemId)
      (by simpa [removeFromCart_lastSync] using hfresh)
    simp only [CartStateService.removeFromCart, hc]
    simp only [CartService.removeFromCart, CartService.updateCart]
    rw [find?_filter_ne]
    simp [localApply_pendingChanges]
  · intro hq hmem
    have hc := localApply_cartState s (CartService.updateItemQuantity s.localCart now itemId q)
      (by simpa [updateItemQuantity_lastSync] using hfresh)
    have hqle : ¬ q ≤ 0 := by omega
    obtain ⟨a, ha, haid⟩ := List.mem_map.mp hmem
    have hmapped : ({ a with quantity := q } : CartItem) ∈
        (CartService.updateItemQuantity s.localCart now itemId q).items := by
      simp only [CartService.updateItemQuantity, if_neg hqle, CartService.updateCart]
      refine List.mem_map.mpr ⟨a, ha, ?_⟩
      simp [haid]
    have hsome : ((CartService.updateItemQuantity s.localCart now itemId q).items.find?
        (fun item => item.id == itemId)).isSome := by
      rw [List.find?_isSome]
      exact ⟨{ a with quantity := q }, hmapped, by simp [haid]⟩
    obtain ⟨it, hit⟩ := Option.isSome_iff_exists.mp hsome
    have hitid : it.id = itemId := by
      have := List.find?_some hit
      simpa using this
    refine ⟨it, hitid, ?_⟩
    simp only [CartStateService.updateItemQuantity, hc, hit]
    simp [addPendingChange_pendingChanges, localApply_pendingChanges]

/-- Witness for `mutation_failure_pending` at the synced one-item state. -/
theorem mutation_failure_pending_witness :
    shouldAcceptLocal syncedCoordState.cartState.lastSync (some 6) = true ∧
    ((CartStateService.removeFromCart syncedCoordState 6 "a" true false).pendingChanges
      = syncedCoordState.pendingChanges) ∧
    (∃ it : CartItem, it.id = "a" ∧
      (CartStateService.updateItemQuantity syncedCoordState 6 "a" 2 true false).pendingChanges
        = syncedCoordState.pendingChanges ++
          [{ type := .update, item := some (.cartItem { it with quantity := 2 }),
             timestamp := 6, retryCount := 0 }]) := by
  have h := mutation_failure_pending syncedCoordState 6 "x" sampleProduct 2 none none none "a"
    (by decide)
  exact ⟨by decide, h.2.1, h.2.2 (by decide) (by decide)⟩

/-- C10: while authenticated with a fresh local-mutation timestamp, a failed
remote clear enqueues exactly one `remove` PendingChange whose payload is
`items[0]` of the already-emptied coordinator item list — i.e. no payload at
all. -/
theorem clear_failure_enqueues_no_payload (s : CoordState) (now : ℕ)
    (hfresh : shouldAcceptLocal s.cartState.lastSync (some now) = true) :
    (CartStateService.clearCart s now true false).pendingChanges =
      s.pendingChanges ++
        [{ type := .remove, item := none, timestamp := now, retryCount := 0 }] := by
  have hc := localApply_cartState s (CartService.clearCart s.localCart now)
    (by simpa [CartService.clearCart, CartService.updateCart] using hfresh)
  simp only [CartStateService.clearCart, hc]
  simp [CartService.clearCart, CartService.updateCart, addPendingChange_pendingChanges,
    localApply_pendingChanges]

/-- Witness for `clear_failure_enqueues_no_payload` at the synced one-item
state. -/
theorem clear_failure_enqueues_no_payload_witness :
    shouldAcceptLocal syncedCoordState.cartState.lastSync (some 6) = true ∧
    (CartStateService.clearCart syncedCoordState 6 true false).pendingChanges =
      syncedCoordState.pendingChanges ++
        [{ type := .remove, item := none, timestamp := 6, retryCount := 0 }] :=
  ⟨by decide, clear_failure_enqueues_no_payload syncedCoordState 6 (by decide)⟩

/-! ### The Remote Cart Gateway (`CartDatabaseService`) and full reconciliation -/

/-- `CartItemDatabase` from src/app/types/cart.ts: the scalar columns of a
`cart_items` row. The joined `products` record of `fetchCartItems` is
recovered through a product catalog `lookup : String → ProductDisplay`
(foreign-key join by `product_id`); `created_at`/`updated_at` only influence
the display ordering of the fetch and are abstracted into the list order of
the table. -/
structure CartItemDatabase where
  id : String
  user_id : String
  product_id : String
  quantity : ℤ
  selected_color : Option String
  selected_handle : Option String
  custom_name : Option String
deriving DecidableEq, Repr

/-- The matching predicate of `syncCartWithDatabase`: a database row and a
local item agree on (productId, color, handle, customName). -/
def matchesLocalItem (dbItem : CartItemDatabase) (localItem : CartItem) : Bool :=
  dbItem.product_id == localItem.product.id &&
  dbItem.selected_color == localItem.selectedColor &&
  dbItem.selected_handle == localItem.selectedHandle &&
  dbItem.custom_name == localItem.customName

/-- The creation payload built from a local item during reconciliation. -/
def createOf (localItem : CartItem) : CartItemCreate :=
  { product_id := localItem.product.id
    quantity := localItem.quantity
    selected_color := localItem.selectedColor
    selected_handle := localItem.selectedHandle
    custom_name := localItem.customName }

namespace CartDatabaseService

/-- `fetchCartItems`: all `cart_items` rows of the given user. -/
def fetchCartItems (userId : String) (db : List CartItemDatabase) : List CartItemDatabase :=
  db.filter (fun row => row.user_id == userId)

/-- `transformDatabaseItemToCartItem`: rebuild a `CartItem` from a row and
its joined product record. -/
def transformDatabaseItemToCartItem (lookup : String → ProductDisplay)
    (dbItem : CartItemDatabase) : CartItem :=
  { id := dbItem.id
    product := lookup dbItem.product_id
    quantity := dbItem.quantity
    selectedColor := dbItem.selected_color
    selectedHandle := dbItem.selected_handle
    customName := dbItem.custom_name
    price := (lookup dbItem.product_id).price }

/-- The row created by an insert of the given payload for the given user. -/
def mkRow (userId newId : String) (item : CartItemCreate) : CartItemDatabase :=
  { id := newId, user_id := userId, product_id := item.product_id,
    quantity := item.quantity, selected_color := item.selected_color,
    selected_handle := item.selected_handle, custom_name := item.custom_name }

/-- `addCartItem`: insert a row for the user (the database assigns `newId`). -/
def addCartItem (userId newId : String) (item : CartItemCreate)
    (db : List CartItemDatabase) : List CartItemDatabase :=
  db ++ [mkRow userId newId item]

/-- `removeCartItem`: delete the rows with the given id. -/
def removeCartItem (itemId : String) (db : List CartItemDatabase) : List CartItemDatabase :=
  db.filter (fun row => !(row.id == itemId))

/-- `updateCartItem` restricted to the quantity column, the only column the
reconciliation updates. -/
def updateCartItemQuantity (itemId : String) (quantity : ℤ)
    (db : List CartItemDatabase) : List CartItemDatabase :=
  db.map (fun row => if row.id == itemId then { row with quantity := quantity } else row)

/-- `itemsToAdd` of `syncCartWithDatabase`: local items with no matching
database row. -/
def itemsToAddOf (userId : String) (localItems : List CartItem)
    (db : List CartItemDatabase) : List CartItem :=
  localItems.filter (fun localItem =>
    !((fetchCartItems userId db).any (fun dbItem => matchesLocalItem dbItem localItem)))

/-- `itemsToRemove` of `syncCartWithDatabase`: database rows with no matching
local item. -/
def itemsToRemoveOf (userId : String) (localItems : List CartItem)
    (db : List CartItemDatabase) : List CartItemDatabase :=
  (fetchCartItems userId db).filter (fun dbItem =>
    !(localItems.any (fun localItem => matchesLocalItem dbItem localItem)))

/-- `itemsToUpdate` of `syncCartWithDatabase`: local items whose matching
database row holds a different quantity. -/
def itemsToUpdateOf (userId : String) (localItems : List CartItem)
    (db : List CartItemDatabase) : List CartItem :=
  localItems.filter (fun localItem =>
    match (fetchCartItems userId db).find? (fun dbItem =>
        matchesLocalItem dbItem localItem) with
    | some dbItem => dbItem.quantity != localItem.quantity
    | none => false)

/-- The inserts of the reconciliation batch, with database-assigned ids drawn
from `idGen`. -/
def dbAfterAdds (idGen : ℕ → String) (userId : String) (localItems : List CartItem)
    (db : List CartItemDatabase) : List CartItemDatabase :=
  ((itemsToAddOf userId localItems db).enum).foldl
    (fun acc pair => addCartItem userId (idGen pair.1) (createOf pair.2) acc) db

/-- The full effect of the reconciliation batch on the remote table: the
inserts, then the deletes of the unmatched rows, then the quantity updates
(the batch is launched at once via `Promise.all`; the three groups touch
disjoint rows, so the application order is immaterial). -/
def dbAfterSync (idGen : ℕ → String) (userId : String) (localItems : List CartItem)
    (db : List CartItemDatabase) : List CartItemDatabase :=
  let dbItems := fetchCartItems userId db
  let db1 := dbAfterAdds idGen userId localItems db
  let db2 := (itemsToRemoveOf userId localItems db).foldl
    (fun acc dbItem => removeCartItem dbItem.id acc) db1
  let db3 := (itemsToUpdateOf userId localItems db).foldl
    (fun acc localItem =>
      match dbItems.find? (fun dbItem => matchesLocalItem dbItem localItem) with
      | some dbItem => updateCartItemQuantity dbItem.id localItem.quantity acc
      | none => acc) db2
  db3

/-- `CartDatabaseService.syncCartWithDatabase` when every remote call
succeeds: run the batch, refetch the canonical remote set, and return it
transformed (the new Local Store contents) together with the remote table. -/
def syncCartWithDatabase (lookup : String → ProductDisplay) (idGen : ℕ → String)
    (userId : String) (localItems : List CartItem) (db : List CartItemDatabase) :
    List CartItem × List CartItemDatabase :=
  let db3 := dbAfterSync idGen userId localItems db
  ((fetchCartItems userId db3).map (transformDatabaseItemToCartItem lookup), db3)

end CartDatabaseService

/-- Failure oracles for the remote calls issued during reconciliation. -/
structure RemoteFailures where
  failInsert : CartItemCreate → Bool
  failDelete : String → Bool
  failUpdate : String → Bool

/-- Does any call of the reconciliation batch fail? (`Promise.all` rejects as
soon as one of the launched calls rejects.) -/
def reconcileFails (failures : RemoteFailures) (userId : String)
    (localItems : List CartItem) (db : List CartItemDatabase) : Bool :=
  (CartDatabaseService.itemsToAddOf userId localItems db).any
    (fun localItem => failures.failInsert (createOf localItem)) ||
  (CartDatabaseService.itemsToRemoveOf userId localItems db).any
    (fun dbItem => failures.failDelete dbItem.id) ||
  (CartDatabaseService.itemsToUpdateOf userId localItems db).any
    (fun localItem =>
      match (CartDatabaseService.fetchCartItems userId db).find? (fun dbItem =>
          matchesLocalItem dbItem localItem) with
      | some dbItem => failures.failUpdate dbItem.id
      | none => false)

namespace CartDatabaseService

/-- `CartDatabaseService.syncCartWithDatabase` with its failure path: when any
batch call fails, `Promise.all` rejects, the catch block records the message
on the service's sync status and rethrows — the refetch and the returned
synchronized state never happen. -/
def syncCartAttempt (lookup : String → ProductDisplay) (idGen : ℕ → String)
    (failures : RemoteFailures) (userId : String) (localItems : List CartItem)
    (db : List CartItemDatabase) :
    Except String (List CartItem × List CartItemDatabase) :=
  if reconcileFails failures userId localItems db then
    Except.error "Failed to sync cart"
  else
    Except.ok (syncCartWithDatabase lookup idGen userId localItems db)

end CartDatabaseService

namespace CartStateService

/-- `CartStateService.syncCartWithDatabase`: set loading, hand the
coordinator's current items to the gateway sync; on success overwrite the
coordinator's cart with the synced items and stamp `lastSync`; on failure
record the error message — no PendingChange is created on this path. -/
def syncCartWithDatabase (s : CoordState) (now : ℕ) (lookup : String → ProductDisplay)
    (idGen : ℕ → String) (failures : RemoteFailures) (userId : String)
    (db : List CartItemDatabase) : CoordState :=
  match CartDatabaseService.syncCartAttempt lookup idGen failures userId
      s.cartState.items db with
  | .ok result =>
      { s with cartState := { s.cartState with
          items := result.1
          summary := calculateSummary result.1
          lastSync := some now
          isLoading := false
          error := none } }
  | .error msg =>
      { s with cartState := { s.cartState with error := some msg, isLoading := false } }

end CartStateService

/-- A remote row of user "u" matching no local item in the tests below. -/
def rowX : CartItemDatabase :=
  { id := "r1", user_id := "u", product_id := "p1", quantity := 2,
    selected_color := none, selected_handle := none, custom_name := none }

/-- A well-formed product catalog: the joined product record's id is the
row's `product_id`. -/
def catalog0 : String → ProductDisplay :=
  fun productId => { id := productId, price := 10, originalPrice := none }

/-- A database id generator for concrete evaluations. -/
def idGen0 : ℕ → String := fun k => "gen" ++ toString k

/-- C1 counterexample: reconciling an empty Local Store against a remote set
holding row "r1" deletes the row from the remote table and leaves the Local
Store empty — the remote-only item is neither kept remotely nor pulled
locally, contradicting "remote wins". -/
theorem remote_only_item_deleted :
    (CartDatabaseService.syncCartWithDatabase catalog0 idGen0 "u" [] [rowX]).1 = [] ∧
    (CartDatabaseService.syncCartWithDatabase catalog0 idGen0 "u" [] [rowX]).2 = [] :=
  ⟨rfl, rfl⟩

section RemovalLemmas

theorem mem_removeCartItem {row : CartItemDatabase} {itemId : String}
    {db : List CartItemDatabase} (h : row ∈ CartDatabaseService.removeCartItem itemId db) :
    row ∈ db ∧ row.id ≠ itemId := by
  refine ⟨List.mem_of_mem_filter h, ?_⟩
  have hp := List.of_mem_filter h
  simpa using hp

theorem removeFold_subset (L : List CartItemDatabase) (acc : List CartItemDatabase)
    {row : CartItemDatabase}
    (h : row ∈ L.foldl (fun acc dbItem => CartDatabaseService.removeCartItem dbItem.id acc) acc) :
    row ∈ acc := by
  induction L generalizing acc with
  | nil => exact h
  | cons c cs ih => exact (mem_removeCartItem (ih _ h)).1

theorem removeFold_mem_ne {d : CartItemDatabase} (L : List CartItemDatabase)
    (acc : List CartItemDatabase) (hd : d ∈ L) {row : CartItemDatabase}
    (h : row ∈ L.foldl (fun acc dbItem => CartDatabaseService.removeCartItem dbItem.id acc) acc) :
    row.id ≠ d.id := by
  induction L generalizing acc with
  | nil => cases hd
  | cons c cs ih =>
      rcases List.mem_cons.mp hd with rfl | hd'
      · exact (mem_removeCartItem (removeFold_subset cs _ h)).2
      · exact ih _ hd' h

theorem mem_updateCartItemQuantity {row : CartItemDatabase} {itemId : String} {q : ℤ}
    {db : List CartItemDatabase}
    (h : row ∈ CartDatabaseService.updateCartItemQuantity itemId q db) :
    ∃ row0 ∈ db, row.id = row0.id := by
  obtain ⟨row0, h0, rfl⟩ := List.mem_map.mp h
  refine ⟨row0, h0, ?_⟩
  by_cases hid : row0.id == itemId
  · simp [hid]
  · simp [hid]

/-- Membership in an id-preserving fold traces back to the initial list with
the same row id. -/
theorem fold_id_preserving {α : Type} (L : List α)
    (g : α → List CartItemDatabase → List CartItemDatabase)
    (hg : ∀ x acc row, row ∈ g x acc → ∃ row0 ∈ acc, row.id = row0.id)
    (acc : List CartItemDatabase) {row : CartItemDatabase}
    (h : row ∈ L.foldl (fun acc x => g x acc) acc) :
    ∃ row0 ∈ acc, row.id = row0.id := by
  induction L generalizing acc with
  | nil => exact ⟨row, h, rfl⟩
  | cons c cs ih =>
      obtain ⟨r1, hr1, hid1⟩ := ih _ h
      obtain ⟨r0, hr0, hid0⟩ := hg c acc r1 hr1
      exact ⟨r0, hr0, hid1.trans hid0⟩

end RemovalLemmas

/-- Membership in the final remote table traces back through the update pass
to the table after the insert and delete passes, preserving the row id. -/
theorem mem_dbAfterSync (idGen : ℕ → String) (userId : String)
    (localItems : List CartItem) (db : List CartItemDatabase) {row : CartItemDatabase}
    (h : row ∈ CartDatabaseService.dbAfterSync idGen userId localItems db) :
    ∃ row0 ∈ (CartDatabaseService.itemsToRemoveOf userId localItems db).foldl
        (fun acc dbItem => CartDatabaseService.removeCartItem dbItem.id acc)
        (CartDatabaseService.dbAfterAdds idGen userId localItems db),
      row.id = row0.id := by
  simp only [CartDatabaseService.dbAfterSync] at h
  refine fold_id_preserving _ _ ?_ _ h
  intro x acc r hr
  cases hfind : (CartDatabaseService.fetchCartItems userId db).find? (fun dbItem =>
      matchesLocalItem dbItem x) with
  | none =>
      rw [hfind] at hr
      exact ⟨r, hr, rfl⟩
  | some dbItem =>
      rw [hfind] at hr
      exact mem_updateCartItemQuantity hr

/-- C1 (amended): a remote row with no matching local item is deleted from
the remote table by reconciliation (local state wins): no row with its id
survives in the final remote table, and no item with its id is pulled into
the Local Store. -/
theorem remote_only_is_removed (lookup : String → ProductDisplay) (idGen : ℕ → String)
    (userId : String) (localItems : List CartItem) (db : List CartItemDatabase)
    (d : CartItemDatabase) (hd : d ∈ CartDatabaseService.fetchCartItems userId db)
    (hnm : ∀ l ∈ localItems, matchesLocalItem d l = false) :
    (∀ row ∈ (CartDatabaseService.syncCartWithDatabase lookup idGen userId localItems db).2,
      row.id ≠ d.id) ∧
    (∀ item ∈ (CartDatabaseService.syncCartWithDatabase lookup idGen userId localItems db).1,
      item.id ≠ d.id) := by
  have hdrem : d ∈ CartDatabaseService.itemsToRemoveOf userId localItems db := by
    refine List.mem_filter.mpr ⟨hd, ?_⟩
    have hany : localItems.any (fun l => matchesLocalItem d l) = false := by
      rw [List.any_eq_false]
      intro l hl
      simp [hnm l hl]
    simp [hany]
  constructor
  · intro row hrow
    have hrow' : row ∈ CartDatabaseService.dbAfterSync idGen userId localItems db := hrow
    obtain ⟨r0, hr0, hid⟩ := mem_dbAfterSync idGen userId localItems db hrow'
    rw [hid]
    exact removeFold_mem_ne _ _ hdrem hr0
  · intro item hitem
    have hitem' : item ∈ (CartDatabaseService.fetchCartItems userId
        (CartDatabaseService.dbAfterSync idGen userId localItems db)).map
          (CartDatabaseService.transformDatabaseItemToCartItem lookup) := hitem
    obtain ⟨r, hr, rfl⟩ := List.mem_map.mp hitem'
    have hr' : r ∈ CartDatabaseService.dbAfterSync idGen userId localItems db :=
      List.mem_of_mem_filter hr
    obtain ⟨r0, hr0, hid⟩ := mem_dbAfterSync idGen userId localItems db hr'
    have hne := removeFold_mem_ne _ _ hdrem hr0
    simpa [CartDatabaseService.transformDatabaseItemToCartItem, hid] using hne

/-- Witness for `remote_only_is_removed` at the one-row remote table. -/
theorem remote_only_is_removed_witness :
    rowX ∈ CartDatabaseService.fetchCartItems "u" [rowX] ∧
    (∀ l ∈ ([] : List CartItem), matchesLocalItem rowX l = false) ∧
    ((∀ row ∈ (CartDatabaseService.syncCartWithDatabase catalog0 idGen0 "u" [] [rowX]).2,
        row.id ≠ rowX.id) ∧
     (∀ item ∈ (CartDatabaseService.syncCartWithDatabase catalog0 idGen0 "u" [] [rowX]).1,
        item.id ≠ rowX.id)) :=
  ⟨by decide, by decide,
    remote_only_is_removed catalog0 idGen0 "u" [] [rowX] rowX (by decide) (by decide)⟩

/-- A failure oracle where every insert fails and everything else succeeds. -/
def failAllInserts : RemoteFailures :=
  { failInsert := fun _ => true, failDelete := fun _ => false, failUpdate := fun _ => false }

/-- C4 counterexample: reconciling the one-item coordinator state against an
empty remote set with the insert failing creates no PendingChange; the
coordinator records an error and keeps its items, and the reconciliation is
aborted as a whole — the failed insert did not "become a PendingChange". -/
theorem failed_insert_no_pendingChange :
    (CartStateService.syncCartWithDatabase syncedCoordState 7 catalog0 idGen0
      failAllInserts "u" []).pendingChanges = [] ∧
    (CartStateService.syncCartWithDatabase syncedCoordState 7 catalog0 idGen0
      failAllInserts "u" []).cartState.error = some "Failed to sync cart" ∧
    (CartStateService.syncCartWithDatabase syncedCoordState 7 catalog0 idGen0
      failAllInserts "u" []).cartState.items = [itemA] :=
  ⟨rfl, rfl, rfl⟩

/-- C4 (amended): remote call failures during reconciliation are not caught
per item — any failing call makes the whole batch reject: the coordinator
records the error message on its cart state, keeps its item list and sync
state (including the pending queue) unchanged, and creates no PendingChange. -/
theorem reconcile_failure_aborts (s : CoordState) (now : ℕ)
    (lookup : String → ProductDisplay) (idGen : ℕ → String) (failures : RemoteFailures)
    (userId : String) (db : List CartItemDatabase) (msg : String)
    (h : CartDatabaseService.syncCartAttempt lookup idGen failures userId
      s.cartState.items db = Except.error msg) :
    (CartStateService.syncCartWithDatabase s now lookup idGen failures userId
      db).pendingChanges = s.pendingChanges ∧
    (CartStateService.syncCartWithDatabase s now lookup idGen failures userId
      db).syncState = s.syncState ∧
    (CartStateService.syncCartWithDatabase s now lookup idGen failures userId
      db).cartState.items = s.cartState.items ∧
    (CartStateService.syncCartWithDatabase s now lookup idGen failures userId
      db).cartState.error = some msg := by
  simp [CartStateService.syncCartWithDatabase, h]

/-- Witness for `reconcile_failure_aborts` at the one-item coordinator state
with a failing insert. -/
theorem reconcile_failure_aborts_witness :
    (CartDatabaseService.syncCartAttempt catalog0 idGen0 failAllInserts "u"
      syncedCoordState.cartState.items [] = Except.error "Failed to sync cart") ∧
    ((CartStateService.syncCartWithDatabase syncedCoordState 8 catalog0 idGen0
        failAllInserts "u" []).pendingChanges = syncedCoordState.pendingChanges ∧
      (CartStateService.syncCartWithDatabase syncedCoordState 8 catalog0 idGen0
        failAllInserts "u" []).syncState = syncedCoordState.syncState ∧
      (CartStateService.syncCartWithDatabase syncedCoordState 8 catalog0 idGen0
        failAllInserts "u" []).cartState.items = syncedCoordState.cartState.items ∧
      (CartStateService.syncCartWithDatabase syncedCoordState 8 catalog0 idGen0
        failAllInserts "u" []).cartState.error = some "Failed to sync cart") :=
  ⟨rfl, reconcile_failure_aborts syncedCoordState 8 catalog0 idGen0 failAllInserts "u" []
    "Failed to sync cart" rfl⟩

/-! ### Idempotency of full reconciliation -/

/-- The (productId, color, handle, customLabel) key of a database row — the
tuple the uniqueness constraint of the `cart_items` table covers. -/
def keyOfDb (d : CartItemDatabase) : String × Option String × Option String × Option String :=
  (d.product_id, d.selected_color, d.selected_handle, d.custom_name)

/-- The (productId, color, handle, customLabel) key of a local item. -/
def keyOfLocal (l : CartItem) : String × Option String × Option String × Option String :=
  (l.product.id, l.selectedColor, l.selectedHandle, l.customName)

theorem matches_iff_key (d : CartItemDatabase) (l : CartItem) :
    matchesLocalItem d l = true ↔ keyOfDb d = keyOfLocal l := by
  simp only [matchesLocalItem, keyOfDb, keyOfLocal, Bool.and_eq_true, beq_iff_eq,
    Prod.mk.injEq]
  tauto

theorem transform_key (lookup : String → ProductDisplay)
    (hcat : ∀ pid, (lookup pid).id = pid) (r : CartItemDatabase) :
    keyOfLocal (CartDatabaseService.transformDatabaseItemToCartItem lookup r) = keyOfDb r := by
  simp [CartDatabaseService.transformDatabaseItemToCartItem, keyOfLocal, keyOfDb, hcat]

theorem matches_transform (lookup : String → ProductDisplay)
    (hcat : ∀ pid, (lookup pid).id = pid) (d r : CartItemDatabase) :
    matchesLocalItem d (CartDatabaseService.transformDatabaseItemToCartItem lookup r) = true
      ↔ keyOfDb d = keyOfDb r := by
  rw [matches_iff_key, transform_key lookup hcat]

theorem pairwise_key_inj {F : List CartItemDatabase}
    (hF : F.Pairwise (fun a b => keyOfDb a ≠ keyOfDb b)) :
    ∀ {a b}, a ∈ F → b ∈ F → keyOfDb a = keyOfDb b → a = b := by
  induction F with
  | nil =>
      intro a b ha
      exact absurd ha (List.not_mem_nil a)
  | cons x xs ih =>
      intro a b ha hb hk
      obtain ⟨hx, hxs⟩ := List.pairwise_cons.mp hF
      rcases List.mem_cons.mp ha with rfl | ha'
      · rcases List.mem_cons.mp hb with rfl | hb'
        · rfl
        · exact absurd hk (hx b hb')
      · rcases List.mem_cons.mp hb with rfl | hb'
        · exact absurd hk.symm (hx a ha')
        · exact ih hxs ha' hb' hk

/-- The second run of reconciliation plans no inserts: every Local Store item
came from a fetched row matching it by key. -/
theorem itemsToAdd_round2 (lookup : String → ProductDisplay)
    (hcat : ∀ pid, (lookup pid).id = pid) (userId : String) (db3 : List CartItemDatabase) :
    CartDatabaseService.itemsToAddOf userId
      ((CartDatabaseService.fetchCartItems userId db3).map
        (CartDatabaseService.transformDatabaseItemToCartItem lookup)) db3 = [] := by
  apply List.filter_eq_nil_iff.mpr
  intro l hl
  obtain ⟨r, hr, rfl⟩ := List.mem_map.mp hl
  have hany : (CartDatabaseService.fetchCartItems userId db3).any (fun dbItem =>
      matchesLocalItem dbItem (CartDatabaseService.transformDatabaseItemToCartItem lookup r))
        = true :=
    List.any_eq_true.mpr ⟨r, hr, (matches_transform lookup hcat r r).mpr rfl⟩
  simp [hany]

/-- The second run of reconciliation plans no deletes: every fetched row has a
matching Local Store item (its own transform). -/
theorem itemsToRemove_round2 (lookup : String → ProductDisplay)
    (hcat : ∀ pid, (lookup pid).id = pid) (userId : String) (db3 : List CartItemDatabase) :
    CartDatabaseService.itemsToRemoveOf userId
      ((CartDatabaseService.fetchCartItems userId db3).map
        (CartDatabaseService.transformDatabaseItemToCartItem lookup)) db3 = [] := by
  apply List.filter_eq_nil_iff.mpr
  intro d hd
  have hany : (((CartDatabaseService.fetchCartItems userId db3).map
      (CartDatabaseService.transformDatabaseItemToCartItem lookup)).any (fun localItem =>
        matchesLocalItem d localItem)) = true :=
    List.any_eq_true.mpr ⟨CartDatabaseService.transformDatabaseItemToCartItem lookup d,
      List.mem_map_of_mem _ hd, (matches_transform lookup hcat d d).mpr rfl⟩
  simp [hany]

/-- The second run of reconciliation plans no quantity updates: with
pairwise-distinct row keys, the row found for a transformed item is the item's
own source row, so the quantities agree. -/
theorem itemsToUpdate_round2 (lookup : String → ProductDisplay)
    (hcat : ∀ pid, (lookup pid).id = pid) (userId : String) (db3 : List CartItemDatabase)
    (hkeys : (CartDatabaseService.fetchCartItems userId db3).Pairwise
      (fun a b => keyOfDb a ≠ keyOfDb b)) :
    CartDatabaseService.itemsToUpdateOf userId
      ((CartDatabaseService.fetchCartItems userId db3).map
        (CartDatabaseService.transformDatabaseItemToCartItem lookup)) db3 = [] := by
  apply List.filter_eq_nil_iff.mpr
  intro l hl
  obtain ⟨r, hr, rfl⟩ := List.mem_map.mp hl
  cases hfind : (CartDatabaseService.fetchCartItems userId db3).find? (fun dbItem =>
      matchesLocalItem dbItem (CartDatabaseService.transformDatabaseItemToCartItem lookup r))
    with
  | none => simp [hfind]
  | some d =>
      have hpd := List.find?_some hfind
      have hdmem := List.mem_of_find?_eq_some hfind
      have hkey : keyOfDb d = keyOfDb r := (matches_transform lookup hcat d r).mp hpd
      have hdr : d = r := pairwise_key_inj hkeys hdmem hr hkey
      subst hdr
      simp [hfind, CartDatabaseService.transformDatabaseItemToCartItem]

/-- With empty plans, the second reconciliation run leaves the table as it is. -/
theorem dbAfterSync_round2 (lookup : String → ProductDisplay) (idGen2 : ℕ → String)
    (userId : String) (db3 : List CartItemDatabase)
    (hcat : ∀ pid, (lookup pid).id = pid)
    (hkeys : (CartDatabaseService.fetchCartItems userId db3).Pairwise
      (fun a b => keyOfDb a ≠ keyOfDb b)) :
    CartDatabaseService.dbAfterSync idGen2 userId
      ((CartDatabaseService.fetchCartItems userId db3).map
        (CartDatabaseService.transformDatabaseItemToCartItem lookup)) db3 = db3 := by
  simp only [CartDatabaseService.dbAfterSync, CartDatabaseService.dbAfterAdds]
  rw [itemsToAdd_round2 lookup hcat userId db3, itemsToRemove_round2 lookup hcat userId db3,
    itemsToUpdate_round2 lookup hcat userId db3 hkeys]
  simp

section PairwisePreservation

theorem foldl_append_singleton {α β : Type} (L : List α) (f : α → β) (acc : List β) :
    L.foldl (fun acc x => acc ++ [f x]) acc = acc ++ L.map f := by
  induction L generalizing acc with
  | nil => simp
  | cons x xs ih => simp [ih]

theorem dbAfterAdds_eq (idGen : ℕ → String) (userId : String)
    (localItems : List CartItem) (db : List CartItemDatabase) :
    CartDatabaseService.dbAfterAdds idGen userId localItems db =
      db ++ ((CartDatabaseService.itemsToAddOf userId localItems db).enum).map
        (fun pair => CartDatabaseService.mkRow userId (idGen pair.1) (createOf pair.2)) := by
  simp only [CartDatabaseService.dbAfterAdds, CartDatabaseService.addCartItem]
  exact foldl_append_singleton _ _ _

theorem key_mkRow_createOf (userId newId : String) (l : CartItem) :
    keyOfDb (CartDatabaseService.mkRow userId newId (createOf l)) = keyOfLocal l := rfl

theorem fetch_dbAfterAdds (idGen : ℕ → String) (userId : String)
    (localItems : List CartItem) (db : List CartItemDatabase) :
    CartDatabaseService.fetchCartItems userId
        (CartDatabaseService.dbAfterAdds idGen userId localItems db) =
      CartDatabaseService.fetchCartItems userId db ++
        ((CartDatabaseService.itemsToAddOf userId localItems db).enum).map
          (fun pair => CartDatabaseService.mkRow userId (idGen pair.1) (createOf pair.2)) := by
  rw [dbAfterAdds_eq]
  unfold CartDatabaseService.fetchCartItems
  rw [List.filter_append]
  congr 1
  apply List.filter_eq_self.mpr
  intro row hrow
  obtain ⟨pair, hp, rfl⟩ := List.mem_map.mp hrow
  simp [CartDatabaseService.mkRow]

theorem pairwise_snd_enum {α : Type} {R : α → α → Prop} (l : List α) (h : l.Pairwise R) :
    (l.enum).Pairwise (fun a b => R a.2 b.2) := by
  have h2 : (l.enum.map Prod.snd).Pairwise R := by
    rw [List.enum_map_snd]
    exact h
  exact List.pairwise_map.mp h2

/-- After the insert pass, the fetched rows still have pairwise-distinct keys:
surviving rows were distinct, inserted rows carry the keys of the (distinct)
local-only items, and a local-only item's key matches no fetched row. -/
theorem pairwise_fetch_dbAfterAdds (idGen : ℕ → String) (userId : String)
    (localItems : List CartItem) (db : List CartItemDatabase)
    (hldist : localItems.Pairwise (fun a b => keyOfLocal a ≠ keyOfLocal b))
    (hdbdist : (CartDatabaseService.fetchCartItems userId db).Pairwise
      (fun a b => keyOfDb a ≠ keyOfDb b)) :
    (CartDatabaseService.fetchCartItems userId
        (CartDatabaseService.dbAfterAdds idGen userId localItems db)).Pairwise
      (fun a b => keyOfDb a ≠ keyOfDb b) := by
  rw [fetch_dbAfterAdds, List.pairwise_append]
  refine ⟨hdbdist, ?_, ?_⟩
  · rw [List.pairwise_map]
    have hsub : List.Sublist (CartDatabaseService.itemsToAddOf userId localItems db)
        localItems := List.filter_sublist _
    have hadd := hldist.sublist hsub
    have henum := pairwise_snd_enum _ hadd
    refine henum.imp ?_
    intro a b hab
    simpa [key_mkRow_createOf] using hab
  · intro a ha b hb
    obtain ⟨pair, hp, rfl⟩ := List.mem_map.mp hb
    have hpmem : pair.2 ∈ CartDatabaseService.itemsToAddOf userId localItems db := by
      have := List.mem_map_of_mem Prod.snd hp
      rwa [List.enum_map_snd] at this
    have hnm := List.of_mem_filter hpmem
    rw [key_mkRow_createOf]
    intro hkeq
    have hany : (CartDatabaseService.fetchCartItems userId db).any (fun dbItem =>
        matchesLocalItem dbItem pair.2) = true :=
      List.any_eq_true.mpr ⟨a, ha, (matches_iff_key a pair.2).mpr hkeq⟩
    simp [hany] at hnm

theorem removeFold_sublist (L : List CartItemDatabase) (acc : List CartItemDatabase) :
    List.Sublist
      (L.foldl (fun acc dbItem => CartDatabaseService.removeCartItem dbItem.id acc) acc)
      acc := by
  induction L generalizing acc with
  | nil => exact List.Sublist.refl _
  | cons c cs ih => exact (ih _).trans (List.filter_sublist _)

theorem key_updateRow (i : String) (q : ℤ) (row : CartItemDatabase) :
    keyOfDb (if row.id = i then { row with quantity := q } else row) = keyOfDb row := by
  by_cases h : row.id = i
  · simp [h, keyOfDb]
  · simp [h]

theorem fetch_updateQuantity (userId i : String) (q : ℤ) (db : List CartItemDatabase) :
    CartDatabaseService.fetchCartItems userId
        (CartDatabaseService.updateCartItemQuantity i q db) =
      (CartDatabaseService.fetchCartItems userId db).map
        (fun row => if row.id == i then { row with quantity := q } else row) := by
  unfold CartDatabaseService.fetchCartItems CartDatabaseService.updateCartItemQuantity
  rw [List.filter_map]
  congr 1
  apply List.filter_congr
  intro row hrow
  by_cases h : row.id = i
  · simp [h]
  · simp [h]

/-- The update pass preserves pairwise-distinct keys of the fetched rows. -/
theorem pairwise_fetch_update_fold (userId : String) (L : List CartItem)
    (dbItems : List CartItemDatabase) (acc : List CartItemDatabase)
    (hacc : (CartDatabaseService.fetchCartItems userId acc).Pairwise
      (fun a b => keyOfDb a ≠ keyOfDb b)) :
    (CartDatabaseService.fetchCartItems userId (L.foldl (fun acc localItem =>
      match dbItems.find? (fun dbItem => matchesLocalItem dbItem localItem) with
      | some dbItem =>
          CartDatabaseService.updateCartItemQuantity dbItem.id localItem.quantity acc
      | none => acc) acc)).Pairwise (fun a b => keyOfDb a ≠ keyOfDb b) := by
  induction L generalizing acc with
  | nil => exact hacc
  | cons c cs ih =>
      apply ih
      cases hfind : dbItems.find? (fun dbItem => matchesLocalItem dbItem c) with
      | none => simpa [hfind] using hacc
      | some d =>
          simp only [hfind, fetch_updateQuantity, List.pairwise_map]
          refine hacc.imp ?_
          intro a b hab
          simpa [key_updateRow] using hab

/-- The rows fetched after a full reconciliation run have pairwise-distinct
keys, provided the input local items and the input fetched rows do. -/
theorem fetch_dbAfterSync_pairwise (idGen : ℕ → String) (userId : String)
    (localItems : List CartItem) (db : List CartItemDatabase)
    (hldist : localItems.Pairwise (fun a b => keyOfLocal a ≠ keyOfLocal b))
    (hdbdist : (CartDatabaseService.fetchCartItems userId db).Pairwise
      (fun a b => keyOfDb a ≠ keyOfDb b)) :
    (CartDatabaseService.fetchCartItems userId
        (CartDatabaseService.dbAfterSync idGen userId localItems db)).Pairwise
      (fun a b => keyOfDb a ≠ keyOfDb b) := by
  simp only [CartDatabaseService.dbAfterSync]
  apply pairwise_fetch_update_fold
  have h1 := pairwise_fetch_dbAfterAdds idGen userId localItems db hldist hdbdist
  have hsub := removeFold_sublist (CartDatabaseService.itemsToRemoveOf userId localItems db)
    (CartDatabaseService.dbAfterAdds idGen userId localItems db)
  exact h1.sublist (List.Sublist.filter _ hsub)

end PairwisePreservation

/-- C9: full reconciliation is idempotent. Under the data-model invariants —
the catalog join is coherent (`products.id = product_id`) and both the local
item list and the fetched remote rows have pairwise-distinct
(productId, color, handle, customLabel) keys, as the `cart_items` uniqueness
constraint and the store's merge-on-add guarantee — running
`syncCartWithDatabase` a second time on the outcome of a first run leaves the
Local Store contents unchanged. -/
theorem reconciliation_idempotent (lookup : String → ProductDisplay)
    (idGen idGen2 : ℕ → String) (userId : String) (localItems : List CartItem)
    (db : List CartItemDatabase)
    (hcat : ∀ pid, (lookup pid).id = pid)
    (hldist : localItems.Pairwise (fun a b => keyOfLocal a ≠ keyOfLocal b))
    (hdbdist : (CartDatabaseService.fetchCartItems userId db).Pairwise
      (fun a b => keyOfDb a ≠ keyOfDb b)) :
    (CartDatabaseService.syncCartWithDatabase lookup idGen2 userId
        (CartDatabaseService.syncCartWithDatabase lookup idGen userId localItems db).1
        (CartDatabaseService.syncCartWithDatabase lookup idGen userId localItems db).2).1
      = (CartDatabaseService.syncCartWithDatabase lookup idGen userId localItems db).1 := by
  have hkeys := fetch_dbAfterSync_pairwise idGen userId localItems db hldist hdbdist
  have h2 := dbAfterSync_round2 lookup idGen2 userId
    (CartDatabaseService.dbAfterSync idGen userId localItems db) hcat hkeys
  show (CartDatabaseService.fetchCartItems userId
      (CartDatabaseService.dbAfterSync idGen2 userId
        ((CartDatabaseService.fetchCartItems userId
            (CartDatabaseService.dbAfterSync idGen userId localItems db)).map
          (CartDatabaseService.transformDatabaseItemToCartItem lookup))
        (CartDatabaseService.dbAfterSync idGen userId localItems db))).map
      (CartDatabaseService.transformDatabaseItemToCartItem lookup)
    = (CartDatabaseService.fetchCartItems userId
        (CartDatabaseService.dbAfterSync idGen userId localItems db)).map
      (CartDatabaseService.transformDatabaseItemToCartItem lookup)
  rw [h2]

/-- Witness for `reconciliation_idempotent` on a one-item local list against a
one-row remote table sharing its key. -/
theorem reconciliation_idempotent_witness :
    (∀ pid, (catalog0 pid).id = pid) ∧
    ([itemA].Pairwise (fun a b => keyOfLocal a ≠ keyOfLocal b)) ∧
    ((CartDatabaseService.fetchCartItems "u" [rowX]).Pairwise
      (fun a b => keyOfDb a ≠ keyOfDb b)) ∧
    ((CartDatabaseService.syncCartWithDatabase catalog0 idGen0 "u"
        (CartDatabaseService.syncCartWithDatabase catalog0 idGen0 "u" [itemA] [rowX]).1
        (CartDatabaseService.syncCartWithDatabase catalog0 idGen0 "u" [itemA] [rowX]).2).1
      = (CartDatabaseService.syncCartWithDatabase catalog0 idGen0 "u" [itemA] [rowX]).1) :=
  ⟨fun _ => rfl, List.pairwise_singleton _ _,
    by
      have hfe : CartDatabaseService.fetchCartItems "u" [rowX] = [rowX] := rfl
      rw [hfe]
      exact List.pairwise_singleton _ _,
    reconciliation_idempotent catalog0 idGen0 idGen0 "u" [itemA] [rowX] (fun _ => rfl)
      (List.pairwise_singleton _ _)
      (by
        have hfe : CartDatabaseService.fetchCartItems "u" [rowX] = [rowX] := rfl
        rw [hfe]
        exact List.pairwise_singleton _ _)⟩

end LuliCart
